import Mathlib

/-!
Shallow embedding of the Kelley's Candles order-fulfillment code, together
with theorems checking the repository's specification claims.

Conventions of the embedding:
* JavaScript strings are Lean `String`s; all string manipulation is done on
  the underlying `List Char` with structurally recursive helpers so that every
  definition evaluates inside the kernel.
* JavaScript numbers are modelled as exact rationals (`ℚ`); a `NaN` produced
  by coercing a non-numeric value is modelled as `Option.none` where it can
  arise.  (Double rounding for extremely long numeric literals is outside the
  model.)
* Fallible code returns `Except CheckoutErr` / structured result records,
  mirroring the thrown `Error` objects with their `statusCode` fields.
-/

namespace KelleysCandles

/-- An error thrown by the checkout handlers: an HTTP status code plus the
`Error` message, mirroring `err.statusCode = 400; throw err`. -/
structure CheckoutErr where
  statusCode : Nat
  msg : String
deriving DecidableEq, Repr

/-! ### JavaScript string primitives (api/create-checkout-session.js) -/

/-- Models `String.prototype.trim()`: drop whitespace from both ends. -/
def jsTrim (s : String) : String :=
  String.mk (((s.data.dropWhile Char.isWhitespace).reverse.dropWhile
    Char.isWhitespace).reverse)

/-- Models `String.prototype.toLowerCase()` (ASCII letters, which is all the
code relies on). -/
def jsToLower (s : String) : String :=
  String.mk (s.data.map Char.toLower)

/-- Replaces every maximal run of characters satisfying `p` with a single
space: the effect of `.replace(/X+/g, " ")` for a character class `X`.
The flag records whether we are currently inside such a run. -/
def replaceRunsAux (p : Char → Bool) : Bool → List Char → List Char
  | _, [] => []
  | inRun, c :: cs =>
    if p c then
      (if inRun then [] else [' ']) ++ replaceRunsAux p true cs
    else
      c :: replaceRunsAux p false cs

/-- `.replace(/X+/g, " ")` on a whole string. -/
def replaceRuns (p : Char → Bool) (s : String) : String :=
  String.mk (replaceRunsAux p false s.data)

/-- Models `.replace(/\s+/g, " ")`. -/
def collapseWs (s : String) : String :=
  replaceRuns Char.isWhitespace s

/-- The character class `[•–—-]` of `normalizeScent`. -/
def isBulletDash (c : Char) : Bool :=
  c = '•' || c = '–' || c = '—' || c = '-'

/-- The character class `[^a-z0-9 ]` of `normalizeScent` (applied after
lowercasing). -/
def isNonAlnumSpace (c : Char) : Bool :=
  !(('a' ≤ c && c ≤ 'z') || ('0' ≤ c && c ≤ '9') || c = ' ')

/-- Models `pre.startsWith` on JS strings. -/
def jsStartsWith (s pre : String) : Bool :=
  List.isPrefixOf pre.data s.data

/-- Models `Array.prototype.join(sep)` for string arrays. -/
def joinWith (sep : String) : List String → String
  | [] => ""
  | [s] => s
  | s :: rest => s ++ sep ++ joinWith sep rest

/-! ### Catalog constants (api/create-checkout-session.js, lines 3–38) -/

/-- `PRICE_MAP`: the static scent|size → unit price (cents) table, in source
order. -/
def PRICE_MAP : List (String × Nat) :=
  [ ("Apple Pie|16 oz", 1600),
    ("Love Spelling|16 oz", 1600),
    ("Black Raspberry|16 oz", 1600),
    ("Monkey Farts|16 oz", 1600),
    ("Lilac Bush|16 oz", 1600),
    ("Lavander|16 oz", 1600),
    ("Apple Pie|12 oz", 1200),
    ("Black Raspberry|12 oz", 1200),
    ("Monkey Farts|12 oz", 1200),
    ("Lilac Bush|12 oz", 1200),
    ("Apple Pie|6 oz", 600),
    ("Black Raspberry|6 oz", 600),
    ("Monkey Farts|6 oz", 600),
    ("Lilac Bush|6 oz", 600),
    ("Lavander|6 oz", 600) ]

/-- `SCENT_ALIASES`: the cleaned-key → canonical-scent alias table. -/
def SCENT_ALIASES : List (String × String) :=
  [ ("black raspberry vanilla bean", "Black Raspberry"),
    ("black raspberry vanilla", "Black Raspberry"),
    ("black raspberry", "Black Raspberry"),
    ("raspberry", "Black Raspberry"),
    ("apple", "Apple Pie"),
    ("apple pie", "Apple Pie"),
    ("applepie", "Apple Pie"),
    ("apple pie candle", "Apple Pie") ]

/-- `VALID_SCENTS`: scents appearing in `PRICE_MAP` (`key.split("|")[0]`). -/
def VALID_SCENTS : List String :=
  PRICE_MAP.map (fun kv => String.mk (kv.1.data.takeWhile (fun c => c ≠ '|')))

/-- `ENFORCE_SCENT_ALLOWLIST` is `false` in the source. -/
def ENFORCE_SCENT_ALLOWLIST : Bool := false

/-! ### Scent normalization (api/create-checkout-session.js, lines 69–89) -/

/-- `cleaned`: `String(raw || "").trim().replace(/\s+/g, " ")`. -/
def cleanedScentOf (raw : String) : String :=
  collapseWs (jsTrim raw)

/-- `cleanedKey`: lowercase, dashes → space, non-alphanumerics → space,
collapse whitespace, trim. -/
def scentKeyOf (cleaned : String) : String :=
  jsTrim (collapseWs (replaceRuns isNonAlnumSpace
    (replaceRuns isBulletDash (jsToLower cleaned))))

/-- `normalizeScent(raw, index)`. -/
def normalizeScent (raw : String) (index : Nat) : Except CheckoutErr String :=
  let cleaned := cleanedScentOf raw
  if cleaned = "" then
    .error ⟨400, s!"Missing scent/name for cart item at index {index}"⟩
  else
    let cleanedKey := scentKeyOf cleaned
    -- `SCENT_ALIASES[cleanedKey] || cleaned` (alias values are all non-empty,
    -- so falsiness coincides with absence)
    let canonical := match List.lookup cleanedKey SCENT_ALIASES with
      | some v => v
      | none => cleaned
    if ENFORCE_SCENT_ALLOWLIST && !(VALID_SCENTS.contains canonical) then
      .error ⟨400, s!"Unknown scent \"{cleaned}\" for cart item at index {index}"⟩
    else
      .ok canonical

/-! ### Size normalization (api/create-checkout-session.js, lines 91–107) -/

/-- The match of `/(\d+(\.\d+)?)/` starting at a digit: maximal digit run,
then an optional fraction `.\d+` (only if at least one digit follows the
dot). -/
def numTokenAt (l : List Char) : List Char :=
  let ds := l.takeWhile Char.isDigit
  match l.dropWhile Char.isDigit with
  | '.' :: r =>
    let fs := r.takeWhile Char.isDigit
    if fs.isEmpty then ds else ds ++ '.' :: fs
  | _ => ds

/-- First match of `/(\d+(\.\d+)?)/` in the string, if any. -/
def firstNumericToken : List Char → Option (List Char)
  | [] => none
  | c :: cs =>
    if c.isDigit then some (numTokenAt (c :: cs))
    else firstNumericToken cs

/-- Numeric value of a digit run. -/
def digitsToNat (l : List Char) : Nat :=
  l.foldl (fun n c => 10 * n + (c.toNat - 48)) 0

/-- `Number(tok)` for a matched numeric token (exact rational model):
`ip.fs` is the rational `(ip·10^|fs| + fs) / 10^|fs|`. -/
def tokenValue (tok : List Char) : ℚ :=
  let ip := tok.takeWhile Char.isDigit
  match tok.dropWhile Char.isDigit with
  | '.' :: fs =>
    mkRat (digitsToNat ip * 10 ^ fs.length + digitsToNat fs) (10 ^ fs.length)
  | _ => (digitsToNat ip : ℚ)

/-- Least `k` with `d ∣ 10^k` (searching up to `d`, which suffices for the
10-smooth denominators produced by decimal tokens). -/
def leastPow10Exp (d : Nat) : Nat :=
  (((List.range (d + 1)).find? (fun k => 10 ^ k % d == 0)).getD 0)

/-- Left-pads a digit string with zeros to width `k`. -/
def padZeros (k : Nat) (s : String) : String :=
  String.mk (List.replicate (k - s.length) '0') ++ s

/-- JS template interpolation `${value}` for a non-negative number with a
finite decimal representation: shortest decimal form (no leading zeros in the
integer part, no trailing zeros in the fraction, no dot for integers). -/
def formatJsNumber (q : ℚ) : String :=
  let d := q.den
  let k := leastPow10Exp d
  let scaled := q.num.toNat * 10 ^ k / d
  if k = 0 then toString scaled
  else toString (scaled / 10 ^ k) ++ "." ++ padZeros k (toString (scaled % 10 ^ k))

/-- `normalizeSize(raw, index)`.  (`Number.isFinite` never fails on an exact
rational token value, and `Number.isInteger(value) ? value : value` is the
identity, so neither appears separately.) -/
def normalizeSize (raw : String) (index : Nat) : Except CheckoutErr String :=
  let cleaned := jsToLower (jsTrim raw)
  match firstNumericToken cleaned.data with
  | none => .error ⟨400, s!"Invalid size \"{raw}\" for cart item at index {index}"⟩
  | some tok =>
    let value := tokenValue tok
    if value ≤ 0 then
      .error ⟨400, s!"Invalid size \"{raw}\" for cart item at index {index}"⟩
    else
      .ok (formatJsNumber value ++ " oz")

/-! ### Quantity coercion and item normalization
(api/create-checkout-session.js, lines 130–153) -/

/-- The `item.qty` field as received from the client, classified by how
JavaScript coerces it in `Math.max(1, Number(item.qty || 1))`:
* `missing`: absent or falsy (`undefined`, `null`, `0`, `""`, `false`),
  so `item.qty || 1` yields `1`;
* `num q`: a truthy value that `Number` coerces to the number `q`;
* `nonNumeric`: a truthy value that `Number` coerces to `NaN`. -/
inductive QtyInput
  | missing
  | num (q : ℚ)
  | nonNumeric
deriving DecidableEq, Repr

/-- `Math.max(1, Number(item.qty || 1))`; `none` models `NaN`
(`Math.max(1, NaN)` is `NaN`). -/
def coerceQty : QtyInput → Option ℚ
  | .missing => some 1
  | .num q => some (max 1 q)
  | .nonNumeric => none

/-- The guard `qty > 10` (false for `NaN`, as in JS). -/
def qtyLimitExceeded : Option ℚ → Bool
  | none => false
  | some q => decide (10 < q)

/-- A raw cart item.  `nameSource` models
`item.candleName || item.name || item.scent` (first truthy, else `""`,
which `String(raw || "")` also produces for a missing name). -/
structure CartItem where
  nameSource : String
  size : String
  qty : QtyInput
deriving DecidableEq, Repr

/-- One normalized cart line `{ qty, scent, size, unit_amount, key }`. -/
structure NormalizedCartItem where
  qty : Option ℚ
  scent : String
  size : String
  unit_amount : Nat
  key : String
deriving DecidableEq, Repr

/-- Lines 140–150: look the key up in `PRICE_MAP`; `if (!unit_amount)` throw
a 400 listing the sibling keys for the scent.  (`(… ).getD 0` followed by a
zero test models the falsy check; the table contains no zero prices.) -/
def resolvePrice (scent size : String) (index : Nat) : Except CheckoutErr Nat :=
  let key := scent ++ "|" ++ size
  let unit_amount := (List.lookup key PRICE_MAP).getD 0
  if unit_amount = 0 then
    let availableForScent :=
      (PRICE_MAP.map Prod.fst).filter (fun k => jsStartsWith k (scent ++ "|"))
    .error ⟨400, "No price found for \"" ++ key ++ "\" (cart item index " ++
      toString index ++ "). " ++
      (if availableForScent.isEmpty then "No prices exist for this scent."
       else "Available: " ++ joinWith ", " availableForScent)⟩
  else
    .ok unit_amount

/-- The body of `cart.map((item, index) => …)`: normalize scent and size,
coerce the quantity and reject `> 10`, resolve the price. -/
def normalizeItem (item : CartItem) (index : Nat) :
    Except CheckoutErr NormalizedCartItem :=
  match normalizeScent item.nameSource index with
  | .error e => .error e
  | .ok scent =>
    match normalizeSize item.size index with
    | .error e => .error e
    | .ok size =>
      let qty := coerceQty item.qty
      if qtyLimitExceeded qty then
        .error ⟨400, s!"Quantity limit exceeded for cart item at index {index}"⟩
      else
        match resolvePrice scent size index with
        | .error e => .error e
        | .ok unit_amount =>
          .ok ⟨qty, scent, size, unit_amount, scent ++ "|" ++ size⟩

/-! ### Tiered shipping at session creation (src/unnamed/part_003,
lines 115–124 and 191–246).  That handler shares the normalization code
above; its shipping decision only consumes the normalized `qty` and
`unit_amount` fields. -/

/-- The fields of a normalized item that the shipping decision reads. -/
structure TieredCartLine where
  qty : ℚ
  unit_amount : Nat
deriving DecidableEq, Repr

/-- `getTotalQty`: `reduce((sum, i) => sum + (Number(i.qty) || 0), 0)`
(`qty` is already numeric here, so `Number(i.qty) || 0` is the identity for
non-NaN values). -/
def getTotalQty (normalizedItems : List TieredCartLine) : ℚ :=
  normalizedItems.foldl (fun sum i => sum + i.qty) 0

/-- `getTieredShipping(totalQty)`: amount in cents and display label. -/
def getTieredShipping (totalQty : ℚ) : Nat × String :=
  if totalQty ≤ 1 then (600, "Standard Shipping (1 candle)")
  else if totalQty ≤ 3 then (900, "Standard Shipping (2–3 candles)")
  else (1200, "Standard Shipping (4+ candles)")

/-- `FREE_SHIPPING_THRESHOLD_CENTS = 10000` ($100.00). -/
def FREE_SHIPPING_THRESHOLD_CENTS : Nat := 10000

/-- Server-side subtotal: `reduce((sum, i) => sum + i.unit_amount * i.qty, 0)`. -/
def subtotalCents (normalizedItems : List TieredCartLine) : ℚ :=
  normalizedItems.foldl (fun sum i => sum + (i.unit_amount : ℚ) * i.qty) 0

/-- `freeShippingApplied = subtotalCents >= FREE_SHIPPING_THRESHOLD_CENTS`. -/
def freeShippingApplied (normalizedItems : List TieredCartLine) : Bool :=
  decide ((FREE_SHIPPING_THRESHOLD_CENTS : ℚ) ≤ subtotalCents normalizedItems)

/-- `finalShipping`: the free-shipping record at/above the threshold,
otherwise the quantity tier. -/
def finalShipping (normalizedItems : List TieredCartLine) : Nat × String :=
  if freeShippingApplied normalizedItems then (0, "Free Shipping (Orders $100+)")
  else getTieredShipping (getTotalQty normalizedItems)

/-- The `shipping_options` array attached to the session: a one-element
array holding the resolved shipping amount/label. -/
def sessionShippingOptions (normalizedItems : List TieredCartLine) :
    List (Nat × String) :=
  [finalShipping normalizedItems]

/-! ### EasyPost shipment creation (api/lib/easypost.js) -/

/-- One carrier rate as returned by the rate API.  `rate` carries the
`parseFloat(r.rate)` value used for all comparisons. -/
structure EPRate where
  carrier : String
  service : String
  rate : ℚ
  currency : String
deriving DecidableEq, Repr

/-- The filter of lines 135–138: USPS GroundAdvantage or Priority. -/
def preferredRate (r : EPRate) : Bool :=
  r.carrier == "USPS" &&
    (r.service == "GroundAdvantage" || r.service == "Priority")

/-- The first element of a stable ascending sort by `rate`
(`.sort((a, b) => parseFloat(a.rate) - parseFloat(b.rate))[0]`): the earliest
element attaining the minimum price. -/
def foldMinRate (r : EPRate) (rs : List EPRate) : EPRate :=
  rs.foldl (fun best x => if x.rate < best.rate then x else best) r

/-- Head of the price-sorted list, `none` for an empty list. -/
def cheapestRate : List EPRate → Option EPRate
  | [] => none
  | r :: rs => some (foldMinRate r rs)

/-- Lines 134–151: `lowestRate` — the cheapest suitable (USPS
Ground/Priority) rate, falling back to the cheapest rate overall when no
suitable rate exists.  `none` exactly when `rates` is empty, which the
handler turns into the no-rates error beforehand. -/
def selectLowestRate (rates : List EPRate) : Option EPRate :=
  let suitableRates := rates.filter preferredRate
  match cheapestRate suitableRates with
  | some r => some r
  | none => cheapestRate rates

/-- `CANDLE_WEIGHTS` (ounces). -/
def CANDLE_WEIGHTS : List (String × Nat) :=
  [("6 oz", 10), ("12 oz", 18), ("17 oz", 24)]

/-- `WAX_MELT_WEIGHT = 6` (ounces). -/
def WAX_MELT_WEIGHT : Nat := 6

/-- `BOX_WEIGHT = 4` (ounces). -/
def BOX_WEIGHT : Nat := 4

/-- An item as passed to the shipment builder: `{scent, size, qty}`. -/
structure ShipItem where
  scent : String
  size : String
  qty : Nat
deriving DecidableEq, Repr

/-- `calculatePackageWeight(items)` (lines 63–75): reduce over the items —
wax melts use `WAX_MELT_WEIGHT`, candles use `CANDLE_WEIGHTS[size] || 15`
(all table weights are non-zero, so the falsy fallback is absence) — then
add `BOX_WEIGHT`. -/
def calculatePackageWeight (items : List ShipItem) : Nat :=
  let itemWeight := items.foldl (fun total item =>
    if item.size = "wax melt" then
      total + WAX_MELT_WEIGHT * item.qty
    else
      total + ((List.lookup item.size CANDLE_WEIGHTS).getD 15) * item.qty) 0
  itemWeight + BOX_WEIGHT

/-- Per-item unit weight implied by the reduce step, used to state the
additivity of `calculatePackageWeight`. -/
def itemUnitWeight (size : String) : Nat :=
  if size = "wax melt" then WAX_MELT_WEIGHT
  else (List.lookup size CANDLE_WEIGHTS).getD 15

/-- The shipment object returned by `easypost.Shipment.create`. -/
structure EPShipment where
  id : String
  rates : List EPRate
deriving DecidableEq, Repr

/-- The shipment retrieved after the purchase (`Shipment.retrieve`). -/
structure EPBoughtShipment where
  id : String
  tracking_code : Option String
  tracker_public_url : Option String
  label_url : Option String
deriving DecidableEq, Repr

/-- The structured value `createShipment` returns: the success object
(lines 182–192) or the catch-block failure object (lines 200–204). -/
structure ShipmentResult where
  success : Bool
  shipmentId : Option String
  trackingCode : Option String
  trackingUrl : Option String
  labelUrl : Option String
  carrier : Option String
  service : Option String
  cost : Option ℚ
  error : Option String
deriving DecidableEq, Repr

/-- `createShipment` (lines 85–206), parametrized by the outcomes of the
three external EasyPost calls (`Shipment.create`, `Shipment.buy`,
`Shipment.retrieve`); an `Except.error` models that call throwing.  The
surrounding try/catch converts any thrown error into the
`{ success: false, error }` object. -/
def createShipment (createRes : Except String EPShipment)
    (buyRes : Except String Unit)
    (retrieveRes : Except String EPBoughtShipment) : ShipmentResult :=
  let body : Except String (EPBoughtShipment × EPRate) :=
    match createRes with
    | .error m => .error m               -- `Shipment.create` threw
    | .ok shipment =>
      -- lines 129–151: throw when no rates, else select `lowestRate`
      match selectLowestRate shipment.rates with
      | none => .error "No shipping rates available for this shipment"
      | some lowestRate =>
        match buyRes with
        | .error m => .error m           -- `Shipment.buy` threw
        | .ok _ =>
          match retrieveRes with
          | .error m => .error m         -- `Shipment.retrieve` threw
          | .ok boughtShipment => .ok (boughtShipment, lowestRate)
  match body with
  | .ok (boughtShipment, lowestRate) =>
    { success := true,
      shipmentId := some boughtShipment.id,
      trackingCode := boughtShipment.tracking_code,
      trackingUrl := boughtShipment.tracker_public_url,
      labelUrl := boughtShipment.label_url,
      carrier := some lowestRate.carrier,
      service := some lowestRate.service,
      cost := some lowestRate.rate,
      error := none }
  | .error m =>
    { success := false,
      shipmentId := none, trackingCode := none, trackingUrl := none,
      labelUrl := none, carrier := none, service := none, cost := none,
      error := some m }

/-! ### Stripe webhook handler (api/stripe-webhook.js, lines 170–521) -/

/-- The HTTP status the webhook handler responds with, as a function of the
request method, the `stripe-signature` header (`none` = absent; `if (!sig)`
also fires on an empty header), the outcome of
`readRawBody` + `stripe.webhooks.constructEvent` (signature verification),
and the outcome of the entire downstream processing block (session
retrieval, shipment, emails) whose failures the final catch swallows. -/
def stripeWebhookStatus (method : String) (sig : Option String)
    (verifyOutcome : Except String Unit)
    (processOutcome : Except String Unit) : Nat :=
  if method ≠ "POST" then 405
  else if sig.getD "" = "" then 400
  else
    match verifyOutcome with
    | .error _ => 400
    | .ok _ =>
      match processOutcome with
      | .ok _ => 200      -- line 516: `res.status(200).json({ received: true })`
      | .error _ => 200   -- line 519: catch block also responds 200

/-! ### HTML escaping (api/stripe-webhook.js, lines 77–83) -/

/-- `.replace(/c/g, rep)` for a single-character pattern, on the character
list. -/
def replaceCharList (c : Char) (rep : List Char) : List Char → List Char
  | [] => []
  | d :: ds => (if d = c then rep else [d]) ++ replaceCharList c rep ds

/-- String-level wrapper for `replaceCharList`. -/
def replaceChar (c : Char) (rep : String) (s : String) : String :=
  String.mk (replaceCharList c rep.data s.data)

/-- `escapeHtml(str)`: `String(str ?? "")` then the four chained global
replacements, `&` first. -/
def escapeHtml (str : Option String) : String :=
  replaceChar '"' "&quot;"
    (replaceChar '>' "&gt;"
      (replaceChar '<' "&lt;"
        (replaceChar '&' "&amp;" (str.getD ""))))

/-! ## Helper lemmas -/

/-- A successful association-list lookup returns a pair of the list. -/
theorem lookup_pair_mem {β : Type} {k : String} {v : β} :
    ∀ {l : List (String × β)}, List.lookup k l = some v → (k, v) ∈ l
  | [], h => by simp [List.lookup] at h
  | (a, b) :: t, h => by
    by_cases hka : k = a
    · subst hka
      simp [List.lookup] at h
      simp [h]
    · have hbeq : (k == a) = false := beq_eq_false_iff_ne.mpr hka
      simp [List.lookup, hbeq] at h
      exact List.mem_cons_of_mem _ (lookup_pair_mem h)

/-- Every character of a single-character global replacement comes from the
replacement string or is an unreplaced original character. -/
theorem mem_replaceCharList {d c : Char} {rep : List Char} :
    ∀ {l : List Char}, d ∈ replaceCharList c rep l → d ∈ rep ∨ (d ∈ l ∧ d ≠ c)
  | [], h => by simp [replaceCharList] at h
  | hd :: tl, h => by
    simp only [replaceCharList, List.mem_append] at h
    rcases h with h | h
    · by_cases hdc : hd = c
      · rw [if_pos hdc] at h
        exact Or.inl h
      · rw [if_neg hdc] at h
        simp only [List.mem_singleton] at h
        subst h
        exact Or.inr ⟨List.mem_cons_self _ _, hdc⟩
    · rcases mem_replaceCharList h with h' | ⟨hmem, hne⟩
      · exact Or.inl h'
      · exact Or.inr ⟨List.mem_cons_of_mem _ hmem, hne⟩

/-! ## Claim theorems -/

/-- C10: `escapeHtml` sanitizes every string interpolated into the merchant
and customer emails: for every input (with `null`/`undefined` coerced to the
empty string) the output contains no `<` or `>` character and no raw `"`
character, because `&`, `<`, `>` and `"` are each replaced by their HTML
entities in that order. -/
theorem escapeHtml_sanitizes (str : Option String) :
    '<' ∉ (escapeHtml str).data ∧ '>' ∉ (escapeHtml str).data ∧
    '"' ∉ (escapeHtml str).data ∧ escapeHtml none = "" := by
  refine ⟨?_, ?_, ?_, rfl⟩
  · intro h
    rcases mem_replaceCharList h with h | ⟨h, -⟩
    · exact absurd h (by decide)
    rcases mem_replaceCharList h with h | ⟨h, -⟩
    · exact absurd h (by decide)
    rcases mem_replaceCharList h with h | ⟨-, hne⟩
    · exact absurd h (by decide)
    · exact hne rfl
  · intro h
    rcases mem_replaceCharList h with h | ⟨h, -⟩
    · exact absurd h (by decide)
    rcases mem_replaceCharList h with h | ⟨-, hne⟩
    · exact absurd h (by decide)
    · exact hne rfl
  · intro h
    rcases mem_replaceCharList h with h | ⟨-, hne⟩
    · exact absurd h (by decide)
    · exact hne rfl

/-- C2: the webhook handler's HTTP status depends only on the method, the
signature header and signature verification: non-POST requests get 405, a
missing (or empty) signature header gets 400, a failed verification gets
400, and once verification succeeds the handler responds 200 no matter how
the downstream processing block turns out. -/
theorem webhook_response_policy (method : String) (sig : Option String)
    (verifyOutcome processOutcome : Except String Unit) :
    (method ≠ "POST" →
      stripeWebhookStatus method sig verifyOutcome processOutcome = 405) ∧
    (method = "POST" → sig.getD "" = "" →
      stripeWebhookStatus method sig verifyOutcome processOutcome = 400) ∧
    (method = "POST" → sig.getD "" ≠ "" → (∀ m, verifyOutcome = .error m →
      stripeWebhookStatus method sig verifyOutcome processOutcome = 400)) ∧
    (method = "POST" → sig.getD "" ≠ "" → verifyOutcome = .ok () →
      stripeWebhookStatus method sig verifyOutcome processOutcome = 200) ∧
    (∀ p₁ p₂ : Except String Unit,
      stripeWebhookStatus method sig verifyOutcome p₁ =
        stripeWebhookStatus method sig verifyOutcome p₂) := by
  refine ⟨?_, ?_, ?_, ?_, ?_⟩
  · intro hm
    simp [stripeWebhookStatus, hm]
  · intro hm hs
    simp [stripeWebhookStatus, hm, hs]
  · intro hm hs m hv
    subst hv
    simp [stripeWebhookStatus, hm, hs]
  · intro hm hs hv
    subst hv
    cases processOutcome <;> simp [stripeWebhookStatus, hm, hs]
  · intro p₁ p₂
    by_cases hm : method = "POST"
    · by_cases hs : sig.getD "" = ""
      · simp [stripeWebhookStatus, hm, hs]
      · cases verifyOutcome <;> cases p₁ <;> cases p₂ <;>
          simp [stripeWebhookStatus, hm, hs]
    · simp [stripeWebhookStatus, hm]

/-- C2 witness: a verified POST whose downstream processing throws still
gets status 200. -/
theorem webhook_response_policy_witness :
    stripeWebhookStatus "POST" (some "t=1,v1=abc") (.ok ())
      (.error "shipment failed") = 200 :=
  (webhook_response_policy "POST" (some "t=1,v1=abc") (.ok ())
    (.error "shipment failed")).2.2.2.1 rfl (by decide) rfl

/-- C9: `createShipment` never propagates an exception: whatever the three
external EasyPost calls do, the result is either a success record with no
error or a failure record carrying the error message; in particular a
shipment that comes back with zero rates yields the structured failure
"No shipping rates available for this shipment". -/
theorem createShipment_error_containment (createRes : Except String EPShipment)
    (buyRes : Except String Unit) (retrieveRes : Except String EPBoughtShipment) :
    ((createShipment createRes buyRes retrieveRes).success = true ∧
        (createShipment createRes buyRes retrieveRes).error = none ∨
      (createShipment createRes buyRes retrieveRes).success = false ∧
        ∃ m, (createShipment createRes buyRes retrieveRes).error = some m) ∧
    (∀ s, createRes = .ok s → s.rates = [] →
      createShipment createRes buyRes retrieveRes =
        ⟨false, none, none, none, none, none, none, none,
          some "No shipping rates available for this shipment"⟩) := by
  constructor
  · cases createRes with
    | error m => exact Or.inr ⟨rfl, m, rfl⟩
    | ok s =>
      cases hsel : selectLowestRate s.rates with
      | none =>
        exact Or.inr ⟨by simp [createShipment, hsel],
          "No shipping rates available for this shipment",
          by simp [createShipment, hsel]⟩
      | some r =>
        cases buyRes with
        | error m => exact Or.inr ⟨by simp [createShipment, hsel], m, by simp [createShipment, hsel]⟩
        | ok u =>
          cases retrieveRes with
          | error m => exact Or.inr ⟨by simp [createShipment, hsel], m, by simp [createShipment, hsel]⟩
          | ok b => exact Or.inl ⟨by simp [createShipment, hsel], by simp [createShipment, hsel]⟩
  · intro s hc hrates
    subst hc
    have hsel : selectLowestRate s.rates = none := by
      rw [hrates]; rfl
    simp [createShipment, hsel]

/-- C9 witness: a created shipment with zero rates produces the structured
no-rates failure. -/
theorem createShipment_error_containment_witness :
    createShipment (.ok ⟨"shp_1", []⟩) (.ok ()) (.ok ⟨"shp_1", none, none, none⟩) =
      ⟨false, none, none, none, none, none, none, none,
        some "No shipping rates available for this shipment"⟩ :=
  (createShipment_error_containment (.ok ⟨"shp_1", []⟩) (.ok ())
    (.ok ⟨"shp_1", none, none, none⟩)).2 ⟨"shp_1", []⟩ rfl rfl

/-- The weight fold computes a running sum of per-item weights. -/
theorem weight_foldl_eq_sum (items : List ShipItem) (n : Nat) :
    items.foldl (fun total item =>
      if item.size = "wax melt" then
        total + WAX_MELT_WEIGHT * item.qty
      else
        total + ((List.lookup item.size CANDLE_WEIGHTS).getD 15) * item.qty) n =
    n + (items.map (fun i => itemUnitWeight i.size * i.qty)).sum := by
  induction items generalizing n with
  | nil => simp
  | cons x xs ih =>
    simp only [List.foldl_cons, List.map_cons, List.sum_cons, ih]
    by_cases h : x.size = "wax melt" <;> simp [h, itemUnitWeight] <;> omega

/-- C7: weight computation is additive, deterministic and order-independent:
`calculatePackageWeight` is the fixed 4 oz packaging weight plus the sum of
per-size unit weight (10/18/24 oz for the known candle sizes, 6 oz for
"wax melt", 15 oz for unknown sizes) times quantity, and permuting the item
list leaves the total unchanged. -/
theorem calculatePackageWeight_additive (items itemsPermuted : List ShipItem)
    (hperm : items.Perm itemsPermuted) :
    calculatePackageWeight items =
      4 + (items.map (fun i => itemUnitWeight i.size * i.qty)).sum ∧
    calculatePackageWeight items = calculatePackageWeight itemsPermuted ∧
    itemUnitWeight "6 oz" = 10 ∧ itemUnitWeight "12 oz" = 18 ∧
    itemUnitWeight "17 oz" = 24 ∧ itemUnitWeight "wax melt" = 6 ∧
    (∀ size, size ∉ ["6 oz", "12 oz", "17 oz", "wax melt"] →
      itemUnitWeight size = 15) := by
  refine ⟨?_, ?_, rfl, rfl, rfl, rfl, ?_⟩
  · rw [calculatePackageWeight, weight_foldl_eq_sum]
    simp [BOX_WEIGHT]
    omega
  · rw [calculatePackageWeight, calculatePackageWeight,
      weight_foldl_eq_sum, weight_foldl_eq_sum]
    have := List.Perm.sum_eq
      (hperm.map (fun i => itemUnitWeight i.size * i.qty))
    omega
  · intro size hsize
    simp only [List.mem_cons, List.not_mem_nil, or_false, not_or] at hsize
    obtain ⟨h6, h12, h17, hwm⟩ := hsize
    simp [itemUnitWeight, hwm, List.lookup, CANDLE_WEIGHTS,
      beq_eq_false_iff_ne.mpr h6, beq_eq_false_iff_ne.mpr h12,
      beq_eq_false_iff_ne.mpr h17]

/-- C7 witness: a two-line cart and its transposition have the same weight,
matching the additive formula. -/
theorem calculatePackageWeight_additive_witness :
    calculatePackageWeight
      [⟨"Apple Pie", "12 oz", 2⟩, ⟨"Lilac Bush", "wax melt", 1⟩] = 46 ∧
    calculatePackageWeight
      [⟨"Lilac Bush", "wax melt", 1⟩, ⟨"Apple Pie", "12 oz", 2⟩] = 46 := by
  have h := calculatePackageWeight_additive
    [⟨"Apple Pie", "12 oz", 2⟩, ⟨"Lilac Bush", "wax melt", 1⟩]
    [⟨"Lilac Bush", "wax melt", 1⟩, ⟨"Apple Pie", "12 oz", 2⟩]
    (List.Perm.swap _ _ _)
  have h46 : calculatePackageWeight
      [⟨"Apple Pie", "12 oz", 2⟩, ⟨"Lilac Bush", "wax melt", 1⟩] = 46 := by
    rw [h.1]; rfl
  exact ⟨h46, h.2.1 ▸ h46⟩

/-- The running minimum of the rate fold is one of the candidates. -/
theorem foldMinRate_mem (r : EPRate) (rs : List EPRate) :
    foldMinRate r rs ∈ r :: rs := by
  induction rs generalizing r with
  | nil => simp [foldMinRate]
  | cons x xs ih =>
    simp only [foldMinRate, List.foldl_cons] at *
    have h := ih (if x.rate < r.rate then x else r)
    rcases List.mem_cons.mp h with h | h
    · rw [h]
      split
      · exact List.mem_cons_of_mem _ (List.mem_cons_self _ _)
      · exact List.mem_cons_self _ _
    · exact List.mem_cons_of_mem _ (List.mem_cons_of_mem _ h)

/-- The running minimum of the rate fold is no more expensive than any
candidate. -/
theorem foldMinRate_le (r : EPRate) (rs : List EPRate) :
    (foldMinRate r rs).rate ≤ r.rate ∧
      ∀ x ∈ rs, (foldMinRate r rs).rate ≤ x.rate := by
  induction rs generalizing r with
  | nil => exact ⟨le_refl _, by simp⟩
  | cons y ys ih =>
    simp only [foldMinRate, List.foldl_cons] at *
    obtain ⟨h1, h2⟩ := ih (if y.rate < r.rate then y else r)
    constructor
    · refine le_trans h1 ?_
      split
      · exact le_of_lt (by assumption)
      · exact le_refl _
    · intro x hx
      rcases List.mem_cons.mp hx with rfl | hx
      · refine le_trans h1 ?_
        split
        · exact le_refl _
        · exact le_of_not_lt (by assumption)
      · exact h2 x hx

/-- `cheapestRate` of a non-empty list is a member below every member. -/
theorem cheapestRate_spec (rates : List EPRate) (hne : rates ≠ []) :
    ∃ m, cheapestRate rates = some m ∧ m ∈ rates ∧
      ∀ x ∈ rates, m.rate ≤ x.rate := by
  cases rates with
  | nil => exact absurd rfl hne
  | cons r rs =>
    refine ⟨foldMinRate r rs, rfl, foldMinRate_mem r rs, ?_⟩
    intro x hx
    rcases List.mem_cons.mp hx with rfl | hx
    · exact (foldMinRate_le x rs).1
    · exact (foldMinRate_le r rs).2 x hx

/-- C1: rate selection in `createShipment`: on a non-empty rate list, if some
rate is USPS GroundAdvantage/Priority, the selected rate is a cheapest such
preferred rate (even if a cheaper non-preferred rate exists); if no rate is
preferred, the selected rate is a globally cheapest rate. -/
theorem selectLowestRate_policy (rates : List EPRate) (hne : rates ≠ []) :
    ((∃ r ∈ rates, preferredRate r = true) →
      ∃ s, selectLowestRate rates = some s ∧ s ∈ rates ∧
        preferredRate s = true ∧
        ∀ r ∈ rates, preferredRate r = true → s.rate ≤ r.rate) ∧
    ((∀ r ∈ rates, preferredRate r = false) →
      ∃ s, selectLowestRate rates = some s ∧ s ∈ rates ∧
        ∀ r ∈ rates, s.rate ≤ r.rate) := by
  constructor
  · rintro ⟨r, hr, hpref⟩
    have hfil : rates.filter preferredRate ≠ [] := by
      intro h0
      have : r ∈ rates.filter preferredRate := List.mem_filter.mpr ⟨hr, hpref⟩
      rw [h0] at this
      exact absurd this (List.not_mem_nil r)
    obtain ⟨m, hm, hmem, hmin⟩ := cheapestRate_spec _ hfil
    refine ⟨m, ?_, (List.mem_filter.mp hmem).1, (List.mem_filter.mp hmem).2, ?_⟩
    · simp only [selectLowestRate, hm]
    · intro x hx hxpref
      exact hmin x (List.mem_filter.mpr ⟨hx, hxpref⟩)
  · intro hnone
    have hfil : rates.filter preferredRate = [] := by
      rw [List.filter_eq_nil_iff]
      intro a ha
      simp [hnone a ha]
    obtain ⟨m, hm, hmem, hmin⟩ := cheapestRate_spec rates hne
    refine ⟨m, ?_, hmem, hmin⟩
    have hnonefil : cheapestRate (rates.filter preferredRate) = none := by
      rw [hfil]; rfl
    simp only [selectLowestRate, hnonefil, hm]

/-- C1 witness: with a cheaper non-preferred UPS Express rate present, the
USPS GroundAdvantage rate is still selected. -/
theorem selectLowestRate_policy_witness :
    ∃ s, selectLowestRate [⟨"UPS", "Express", 6, "USD"⟩,
        ⟨"USPS", "GroundAdvantage", 8, "USD"⟩] = some s ∧
      s ∈ [⟨"UPS", "Express", 6, "USD"⟩, ⟨"USPS", "GroundAdvantage", 8, "USD"⟩] ∧
      preferredRate s = true ∧
      ∀ r ∈ [⟨"UPS", "Express", 6, "USD"⟩, ⟨"USPS", "GroundAdvantage", 8, "USD"⟩],
        preferredRate r = true → s.rate ≤ r.rate :=
  (selectLowestRate_policy _ (by decide)).1
    ⟨⟨"USPS", "GroundAdvantage", 8, "USD"⟩, by decide, by decide⟩

/-- C3: for every valid non-empty cart the session carries exactly one
shipping option; its amount is 0 whenever the server-computed subtotal
reaches the fixed 10000-cent threshold, and otherwise is the
quantity-tiered fee (total quantity 1 → 600, 2–3 → 900, 4 or more → 1200
cents). -/
theorem shipping_option_policy (items : List TieredCartLine)
    (hne : items ≠ []) (hq : ∀ i ∈ items, 1 ≤ i.qty) :
    (sessionShippingOptions items).length = 1 ∧
    ((FREE_SHIPPING_THRESHOLD_CENTS : ℚ) ≤ subtotalCents items →
      (finalShipping items).1 = 0) ∧
    (subtotalCents items < (FREE_SHIPPING_THRESHOLD_CENTS : ℚ) →
      (finalShipping items).1 = (getTieredShipping (getTotalQty items)).1 ∧
      (getTotalQty items = 1 → (finalShipping items).1 = 600) ∧
      (2 ≤ getTotalQty items → getTotalQty items ≤ 3 →
        (finalShipping items).1 = 900) ∧
      (4 ≤ getTotalQty items → (finalShipping items).1 = 1200)) := by
  refine ⟨rfl, ?_, ?_⟩
  · intro hsub
    have hfree : freeShippingApplied items = true := by
      simp [freeShippingApplied, hsub]
    simp [finalShipping, hfree]
  · intro hsub
    have hfree : freeShippingApplied items = false := by
      simp [freeShippingApplied]
      exact hsub
    have htier : finalShipping items = getTieredShipping (getTotalQty items) := by
      simp [finalShipping, hfree]
    refine ⟨by rw [htier], ?_, ?_, ?_⟩
    · intro h1
      rw [htier, getTieredShipping, if_pos (le_of_eq h1)]
    · intro h2 h3
      have hn1 : ¬ getTotalQty items ≤ 1 := by linarith
      rw [htier, getTieredShipping, if_neg hn1, if_pos h3]
    · intro h4
      have hn1 : ¬ getTotalQty items ≤ 1 := by linarith
      have hn3 : ¬ getTotalQty items ≤ 3 := by linarith
      rw [htier, getTieredShipping, if_neg hn1, if_neg hn3]

/-- C3 witness: a one-candle $12.00 cart gets exactly one shipping option at
the 600-cent tier, and a $160.00 cart gets the free-shipping amount 0. -/
theorem shipping_option_policy_witness :
    (sessionShippingOptions [⟨1, 1200⟩]).length = 1 ∧
    (finalShipping [⟨1, 1200⟩]).1 = 600 ∧
    (finalShipping [⟨10, 1600⟩]).1 = 0 := by
  have h1 := shipping_option_policy [⟨1, 1200⟩] (by decide)
    (by intro i hi; simp at hi; rw [hi])
  have h2 := shipping_option_policy [⟨10, 1600⟩] (by decide)
    (by intro i hi; simp at hi; rw [hi]; norm_num)
  have hsub1 : subtotalCents [⟨1, 1200⟩] < (FREE_SHIPPING_THRESHOLD_CENTS : ℚ) := by
    simp [subtotalCents, FREE_SHIPPING_THRESHOLD_CENTS]
    norm_num
  have hqty1 : getTotalQty [⟨1, 1200⟩] = 1 := by
    simp [getTotalQty]
  have hsub2 : (FREE_SHIPPING_THRESHOLD_CENTS : ℚ) ≤ subtotalCents [⟨10, 1600⟩] := by
    simp [subtotalCents, FREE_SHIPPING_THRESHOLD_CENTS]
    norm_num
  exact ⟨h1.1, (h1.2.2 hsub1).2.1 hqty1, h2.2.1 hsub2⟩

/-- C8: scent normalization is idempotent on canonical scents: whenever the
cleaned key of an input is in the alias table, normalization returns the
table's canonical scent, and normalizing that canonical scent again returns
it unchanged. -/
theorem normalizeScent_idempotent (raw : String) (index : Nat) (c : String)
    (h : List.lookup (scentKeyOf (cleanedScentOf raw)) SCENT_ALIASES = some c) :
    normalizeScent raw index = .ok c ∧ normalizeScent c index = .ok c := by
  have hmem := lookup_pair_mem h
  have hc : c = "Black Raspberry" ∨ c = "Apple Pie" := by
    have hv : ∀ v ∈ SCENT_ALIASES.map Prod.snd,
        v = "Black Raspberry" ∨ v = "Apple Pie" := by decide
    exact hv c (List.mem_map_of_mem Prod.snd hmem)
  constructor
  · have hne : cleanedScentOf raw ≠ "" := by
      intro h0
      rw [h0] at h
      have hkey : List.lookup (scentKeyOf "") SCENT_ALIASES = none := rfl
      rw [hkey] at h
      exact Option.noConfusion h
    simp only [normalizeScent]
    rw [if_neg hne, h]
    simp [ENFORCE_SCENT_ALLOWLIST]
  · rcases hc with rfl | rfl
    · rfl
    · rfl

/-- C8 witness: the alias "black raspberry vanilla bean" maps to
"Black Raspberry", and normalizing "Black Raspberry" again leaves it
unchanged. -/
theorem normalizeScent_idempotent_witness :
    normalizeScent "black raspberry vanilla bean" 0 = .ok "Black Raspberry" ∧
    normalizeScent "Black Raspberry" 0 = .ok "Black Raspberry" :=
  normalizeScent_idempotent "black raspberry vanilla bean" 0 "Black Raspberry" rfl
/-- Every price in the table is positive, so the falsy `!unit_amount` check
fires exactly on absent keys. -/
theorem price_map_pos {k : String} {p : Nat}
    (h : List.lookup k PRICE_MAP = some p) : 0 < p := by
  have hmem := lookup_pair_mem h
  have hall : ∀ kv ∈ PRICE_MAP, 0 < kv.2 := by decide
  exact hall _ hmem

/-- C6: catalog lookup: a (scent, size) key absent from the static price
table makes normalization fail with a 400 error whose message lists the
other keys available for that scent when any exist (and says so when none
do) — never a silently defaulted price; a present key always resolves to
its fixed table price. -/
theorem catalog_lookup_policy (scent size : String) (index : Nat) :
    (List.lookup (scent ++ "|" ++ size) PRICE_MAP = none →
      ∀ avail, avail = (PRICE_MAP.map Prod.fst).filter
          (fun k => jsStartsWith k (scent ++ "|")) →
        (avail ≠ [] → resolvePrice scent size index =
          .error ⟨400, "No price found for \"" ++ (scent ++ "|" ++ size) ++
            "\" (cart item index " ++ toString index ++ "). " ++
            ("Available: " ++ joinWith ", " avail)⟩) ∧
        (avail = [] → resolvePrice scent size index =
          .error ⟨400, "No price found for \"" ++ (scent ++ "|" ++ size) ++
            "\" (cart item index " ++ toString index ++ "). " ++
            "No prices exist for this scent."⟩)) ∧
    (∀ p, List.lookup (scent ++ "|" ++ size) PRICE_MAP = some p →
      resolvePrice scent size index = .ok p) ∧
    (∀ k p₁ p₂, List.lookup k PRICE_MAP = some p₁ →
      List.lookup k PRICE_MAP = some p₂ → p₁ = p₂) := by
  refine ⟨?_, ?_, ?_⟩
  · intro hnone avail havail
    constructor
    · intro hav
      have hemp : avail.isEmpty = false := by
        cases avail with
        | nil => exact absurd rfl hav
        | cons a t => rfl
      simp only [resolvePrice, hnone, Option.getD_none, ← havail, hemp]
      simp
    · intro hav
      subst hav
      simp only [resolvePrice, hnone, Option.getD_none, ← havail]
      simp
  · intro p hp
    have hpos := price_map_pos hp
    simp only [resolvePrice, hp, Option.getD_some]
    rw [if_neg (Nat.pos_iff_ne_zero.mp hpos)]
  · intro k p₁ p₂ h₁ h₂
    rw [h₁] at h₂
    exact Option.some.inj h₂

/-- C6 witness: "Lavander|12 oz" is absent and fails with a 400 listing the
two available Lavander keys; "Apple Pie|12 oz" is present and resolves to
1200 cents. -/
theorem catalog_lookup_policy_witness :
    resolvePrice "Lavander" "12 oz" 0 =
      .error ⟨400, "No price found for \"Lavander|12 oz\" (cart item index 0). Available: Lavander|16 oz, Lavander|6 oz"⟩ ∧
    resolvePrice "Apple Pie" "12 oz" 0 = .ok 1200 :=
  ⟨((catalog_lookup_policy "Lavander" "12 oz" 0).1 rfl
      ["Lavander|16 oz", "Lavander|6 oz"] rfl).1 (by decide),
    (catalog_lookup_policy "Apple Pie" "12 oz" 0).2.1 1200 rfl⟩

/-- Spec-side predicate for C5, following the claim's words: the raw size
string "contains a positive numeric token".  Every numeric token of
`/(\d+(\.\d+)?)/` is built from digit characters of the string, and a token
has positive value exactly when one of its digits is non-zero; hence the
string contains a positive numeric token iff it contains a digit other
than `0`. -/
def hasPositiveNumericToken (s : String) : Bool :=
  s.data.any (fun c => c.isDigit && c ≠ '0')

/-- C5 counterexample: `"0 6"` contains the positive numeric token `"6"`,
yet `normalizeSize` rejects it with the 400 invalid-size error (the claim
says it should return that number formatted as "6 oz"), because the
code only looks at the first numeric token, `"0"`. -/
theorem normalizeSize_positive_token_counterexample :
    hasPositiveNumericToken "0 6" = true ∧
    normalizeSize "0 6" 0 =
      .error ⟨400, "Invalid size \"0 6\" for cart item at index 0"⟩ :=
  ⟨rfl, rfl⟩

/-- C5 (amended): for every raw size string whose FIRST numeric token is
positive, `normalizeSize` returns that number formatted as "<number> oz";
if the string has no numeric token, or its first numeric token has value
zero, it fails with the 400 invalid-size error. -/
theorem normalizeSize_first_token (raw : String) (index : Nat) :
    (∀ tok, firstNumericToken (jsToLower (jsTrim raw)).data = some tok →
      (0 < tokenValue tok →
        normalizeSize raw index = .ok (formatJsNumber (tokenValue tok) ++ " oz")) ∧
      (tokenValue tok = 0 →
        normalizeSize raw index =
          .error ⟨400, s!"Invalid size \"{raw}\" for cart item at index {index}"⟩)) ∧
    (firstNumericToken (jsToLower (jsTrim raw)).data = none →
      normalizeSize raw index =
        .error ⟨400, s!"Invalid size \"{raw}\" for cart item at index {index}"⟩) := by
  constructor
  · intro tok htok
    constructor
    · intro hpos
      simp only [normalizeSize, htok]
      rw [if_neg (not_le.mpr hpos)]
    · intro hzero
      simp only [normalizeSize, htok]
      rw [if_pos (le_of_eq hzero)]
  · intro hnone
    simp only [normalizeSize, hnone]

/-- C5 witness: "12 oz Jar" has first numeric token "12", which is positive
and yields "12 oz"; "large" has no numeric token and fails with 400. -/
theorem normalizeSize_first_token_witness :
    normalizeSize "12 oz Jar" 0 = .ok "12 oz" ∧
    normalizeSize "large" 1 =
      .error ⟨400, "Invalid size \"large\" for cart item at index 1"⟩ :=
  ⟨((normalizeSize_first_token "12 oz Jar" 0).1 ['1', '2'] rfl).1 (by decide),
    (normalizeSize_first_token "large" 1).2 rfl⟩

/-- C4 counterexample: a submitted quantity of 2.5 is coerced by
`Math.max(1, Number(item.qty || 1))` to 2.5 itself, which is not an integer
— the code never rounds, contradicting "coerced to an integer ≥ 1". -/
theorem coerceQty_integer_counterexample :
    coerceQty (QtyInput.num (mkRat 5 2)) = some (mkRat 5 2) ∧
    (mkRat 5 2).den = 2 ∧ (∀ n : ℤ, (n : ℚ) ≠ mkRat 5 2) := by
  refine ⟨by decide, by decide, ?_⟩
  intro n h
  have hden : ((n : ℚ)).den = (mkRat 5 2).den := congrArg Rat.den h
  rw [Rat.den_intCast] at hden
  have h2 : (mkRat 5 2).den = 2 := by decide
  rw [h2] at hden
  exact absurd hden (by decide)

/-- C4 (amended): every quantity that coerces to a number is coerced to a
number ≥ 1 (not necessarily an integer); when the coerced quantity exceeds
10 (and scent/size normalization succeed), the item is rejected with a 400
quantity-specific message; when it is at most 10 and the price key is
valid, normalization of the item succeeds. -/
theorem quantity_handling (item : CartItem) (index : Nat) :
    (∀ q, coerceQty item.qty = some q → 1 ≤ q) ∧
    (∀ scent size, normalizeScent item.nameSource index = .ok scent →
      normalizeSize item.size index = .ok size →
      (qtyLimitExceeded (coerceQty item.qty) = true →
        normalizeItem item index =
          .error ⟨400, s!"Quantity limit exceeded for cart item at index {index}"⟩) ∧
      (∀ q p, coerceQty item.qty = some q → q ≤ 10 →
        resolvePrice scent size index = .ok p →
        normalizeItem item index =
          .ok ⟨some q, scent, size, p, scent ++ "|" ++ size⟩)) := by
  constructor
  · intro q hq
    cases hqty : item.qty with
    | missing =>
      rw [hqty] at hq
      simp only [coerceQty, Option.some.injEq] at hq
      exact hq.le
    | num x =>
      rw [hqty] at hq
      simp only [coerceQty, Option.some.injEq] at hq
      exact hq ▸ le_max_left 1 x
    | nonNumeric =>
      rw [hqty] at hq
      simp [coerceQty] at hq
  · intro scent size hscent hsize
    constructor
    · intro hex
      simp only [normalizeItem, hscent, hsize]
      rw [if_pos hex]
    · intro q p hq hle hp
      have hex : qtyLimitExceeded (some q) = false := by
        simp only [qtyLimitExceeded]
        exact decide_eq_false (not_lt.mpr hle)
      simp only [normalizeItem, hscent, hsize, hq, hex, hp]
      simp

/-- C4 witness: quantity 20 on a valid item is rejected with the 400
quantity message; quantity 2 on the same item succeeds at the table price. -/
theorem quantity_handling_witness :
    normalizeItem ⟨"Apple Pie", "12 oz", .num 20⟩ 0 =
      .error ⟨400, "Quantity limit exceeded for cart item at index 0"⟩ ∧
    normalizeItem ⟨"Apple Pie", "12 oz", .num 2⟩ 0 =
      .ok ⟨some 2, "Apple Pie", "12 oz", 1200, "Apple Pie|12 oz"⟩ :=
  ⟨((quantity_handling ⟨"Apple Pie", "12 oz", .num 20⟩ 0).2 "Apple Pie" "12 oz"
      rfl rfl).1 (by decide),
    ((quantity_handling ⟨"Apple Pie", "12 oz", .num 2⟩ 0).2 "Apple Pie" "12 oz"
      rfl rfl).2 2 1200 (by decide) (by decide) rfl⟩
